import Mathlib

/-
Verification of the soundwave_generator core (src/soundwave_generator/__init__.py).

The core of the addon is the body of SOUNDWAVEFORM_OT_generate.execute:
signal preparation (downsampling with clamping, optional normalization) followed
by one of three geometry builders (LINEAR, RADIAL, SPIRAL) producing vertex,
edge and face lists.  The definitions below are a shallow embedding of that
code: Python floats become real numbers, numpy index arithmetic becomes Nat
arithmetic, the ZeroDivisionError raised on an empty buffer becomes an Option
or an explicit error value.  Line numbers in doc comments refer to
src/soundwave_generator/__init__.py.
-/

namespace Soundwave

/-- Visualization style enum (vis_style property, lines 85-94). -/
inductive VisStyle
  | LINEAR
  | RADIAL
  | SPIRAL
deriving DecidableEq

/-- Errors of one generation run that the except-handler at lines 319-323 can
surface (exception raised while processing, reported, CANCELLED returned), or
the no-vertices warning at lines 299-301. -/
inductive GenError
  | emptySignal
  | noVertices
deriving DecidableEq

/-- A vertex is a triple of coordinates (x, y, z). -/
abbrev Vert := ℝ × ℝ × ℝ

/-- An edge is a pair of vertex indices. -/
abbrev Edge := Nat × Nat

/-- A face is a quad of vertex indices. -/
abbrev Face := Nat × Nat × Nat × Nat

/-- Embedding of np.arange(0, N, step) (line 185): the values
0, step, 2*step, ... that are strictly below N; there are
ceil(N / step) = (N + step - 1) / step of them. -/
def arange (N step : Nat) : List Nat :=
  List.range' 0 ((N + step - 1) / step) step

/-- Embedding of the step-size computation at lines 179-181: step is
N // target_resolution after the clamp at lines 174-177, with a floor of 1. -/
def strideFor (N r : Nat) : Nat :=
  if N / (if r > N then N else r) = 0 then 1 else N / (if r > N then N else r)

/-- Embedding of the downsampling index selection at lines 171-185.  N is
num_total_samples, r is props.resolution.  The clamp at lines 175-177 caps the
target resolution at N and prints a warning (recorded in the Bool component).
When the clamped target resolution is 0 (only possible for N = 0, i.e. an
empty buffer) the Python division num_total_samples // target_resolution
raises ZeroDivisionError, modelled as none. -/
def sampleIndices (N r : Nat) : Option (List Nat × Bool) :=
  let warn := decide (r > N)
  let tr := if r > N then N else r
  if tr = 0 then none
  else some (arange N (strideFor N r), warn)

/-- Maximum absolute value of a sequence, the divisor used by
librosa.util.normalize with its default infinity norm. -/
def maxAbs (s : List ℝ) : ℝ :=
  (s.map (fun x => |x|)).foldr max 0

/-- Modelled from the spec: librosa.util.normalize (called at lines 192-193
and 202) is an external library routine, not part of this repository.  Per the
spec (section 4.1 step 3) it rescales a sequence so that its maximum absolute
value maps to 1.0, and leaves the sequence untouched when the maximum absolute
value is 0 (librosa treats sub-threshold norms as 1). -/
noncomputable def normalize (s : List ℝ) : List ℝ :=
  if maxAbs s = 0 then s else s.map (fun x => x / maxAbs s)

/-- Signal preparation for the mono path (lines 171-202, else-branch at
194-202): pick every stride-th sample starting at 0, then optionally
normalize.  Returns the prepared samples together with the clamp-warning flag;
none models the ZeroDivisionError on an empty buffer. -/
noncomputable def preparedMono (s : List ℝ) (r : Nat) (normalizeAmp : Bool) :
    Option (List ℝ × Bool) :=
  (sampleIndices s.length r).map (fun p =>
    let d := p.1.map (fun i => s.getD i 0)
    (if normalizeAmp then normalize d else d, p.2))

/-- Loop shape shared by the vertex loops that append two vertices per sample
(lines 220-234, 224-229, 251-263) and the linear edge loop appending two edges
per segment (lines 237-244): for i in range(n), append (fg i).1 then
(fg i).2. -/
def pairFlat {α : Type} (fg : Nat → α × α) (n : Nat) : List α :=
  (List.range n).flatMap (fun i => [(fg i).1, (fg i).2])

/-- LINEAR standard-mode vertices (lines 220-234, has_stereo_z false):
t = i/(n-1) (0.5 for n = 1), x = t*sx, amp = sampled_data[i]*sy, two vertices
at z = -thickness*0.5*sz and z = thickness*0.5*sz. -/
noncomputable def linearVerts (s : List ℝ) (sx sy sz thickness : ℝ) : List Vert :=
  let n := s.length
  pairFlat
    (fun i =>
      let t : ℝ := if n > 1 then (i : ℝ) / ((n : ℝ) - 1) else 0.5
      let x := t * sx
      let amp := s.getD i 0 * sy
      ((x, amp, -thickness * 0.5 * sz), (x, amp, thickness * 0.5 * sz)))
    n

/-- LINEAR Z_AXIS stereo-mode vertices (lines 220-229, has_stereo_z true):
amp_l = sampled_data_l[i]*sy drives y, amp_r = sampled_data_r[i]*sz drives the
data-driven half-thickness, two vertices at z = -amp_r*0.5 and z = amp_r*0.5. -/
noncomputable def linearVertsStereoZ (l r : List ℝ) (sx sy sz : ℝ) : List Vert :=
  let n := l.length
  pairFlat
    (fun i =>
      let t : ℝ := if n > 1 then (i : ℝ) / ((n : ℝ) - 1) else 0.5
      let x := t * sx
      let ampL := l.getD i 0 * sy
      let ampR := r.getD i 0 * sz
      ((x, ampL, -ampR * 0.5), (x, ampL, ampR * 0.5)))
    n

/-- LINEAR edges (lines 237-244): for i in range(n-1), with v_idx = 2*i, the
bottom segment (v_idx, v_idx+2) and the top segment (v_idx+1, v_idx+3). -/
def linearEdges (n : Nat) : List Edge :=
  pairFlat (fun i => ((2 * i, 2 * i + 2), (2 * i + 1, 2 * i + 3))) (n - 1)

/-- LINEAR faces (lines 246-247): one quad (v_idx, v_idx+2, v_idx+3, v_idx+1)
per i in range(n-1). -/
def linearFaces (n : Nat) : List Face :=
  (List.range (n - 1)).map (fun i => (2 * i, 2 * i + 2, 2 * i + 3, 2 * i + 1))

/-- RADIAL vertices (lines 249-263): angle = (i/n)*2*pi,
amp = sampled_data[i]*sy, radius = 1.0 + amp, base position
(cos(angle)*radius*sx, sin(angle)*radius*sx), two vertices at
z = -thickness*0.5*sz and z = thickness*0.5*sz. -/
noncomputable def radialVerts (s : List ℝ) (sx sy sz thickness : ℝ) : List Vert :=
  let n := s.length
  let centerOffset : ℝ := 1.0
  pairFlat
    (fun i =>
      let angle : ℝ := ((i : ℝ) / (n : ℝ)) * 2 * Real.pi
      let amp := s.getD i 0 * sy
      let radius := centerOffset + amp
      let baseX := Real.cos angle * radius * sx
      let baseY := Real.sin angle * radius * sx
      let zOffset := thickness * 0.5 * sz
      ((baseX, baseY, -zOffset), (baseX, baseY, zOffset)))
    n

/-- RADIAL faces (lines 266-271): for every i in range(n), with v_idx = 2*i and
next_v_idx = ((i+1) mod n)*2, one quad
(v_idx, next_v_idx, next_v_idx+1, v_idx+1); no edge list is built. -/
def radialFaces (n : Nat) : List Face :=
  (List.range n).map (fun i =>
    (2 * i, ((i + 1) % n) * 2, ((i + 1) % n) * 2 + 1, 2 * i + 1))

/-- SPIRAL vertices (lines 274-288): 5 revolutions, max radius 1.0*sx,
normTime = i/(n-1) (0.5 for n = 1), angle = normTime*2*pi*5,
radius = normTime*maxRadius, amp = sampled_data[i]*sy, one vertex
(cos(angle)*radius, sin(angle)*radius, amp*sz) per sample. -/
noncomputable def spiralVerts (s : List ℝ) (sx sy sz : ℝ) : List Vert :=
  let n := s.length
  let revolutions : ℝ := 5.0
  let maxRadius : ℝ := 1.0 * sx
  (List.range n).map (fun (i : Nat) =>
    let normTime : ℝ := if n > 1 then (i : ℝ) / ((n : ℝ) - 1) else 0.5
    let angle := normTime * 2 * Real.pi * revolutions
    let radius := normTime * maxRadius
    let amp := s.getD i 0 * sy
    (Real.cos angle * radius, Real.sin angle * radius, amp * sz))

/-- SPIRAL edges (lines 290-292): (i, i+1) for i in range(n-1); no faces. -/
def spiralEdges (n : Nat) : List Edge :=
  (List.range (n - 1)).map (fun i => (i, i + 1))

/-- Dispatch over vis_style (lines 217-293) producing the (verts, edges, faces)
triple handed to mesh.from_pydata at line 303.  RADIAL builds no edge list,
SPIRAL builds no face list. -/
noncomputable def buildGeometry (style : VisStyle) (s : List ℝ)
    (sx sy sz thickness : ℝ) : List Vert × List Edge × List Face :=
  match style with
  | .LINEAR => (linearVerts s sx sy sz thickness, linearEdges s.length, linearFaces s.length)
  | .RADIAL => (radialVerts s sx sy sz thickness, [], radialFaces s.length)
  | .SPIRAL => (spiralVerts s sx sy sz, spiralEdges s.length, [])

/-- The mono-path generation pipeline of execute (lines 170-317): signal
preparation, geometry building, then the empty-verts guard at lines 299-301.
An error value means execute returned CANCELLED; in the emptySignal case the
ZeroDivisionError at line 180 aborts before the mesh datablock creation at
line 297, so no mesh-hosting call is made.  An ok value carries the triple
passed to mesh.from_pydata. -/
noncomputable def generateMono (s : List ℝ) (r : Nat) (normalizeAmp : Bool)
    (style : VisStyle) (sx sy sz thickness : ℝ) :
    Except GenError (List Vert × List Edge × List Face) :=
  match preparedMono s r normalizeAmp with
  | none => .error .emptySignal
  | some (d, _) =>
    let g := buildGeometry style d sx sy sz thickness
    if g.1.isEmpty then .error .noVertices else .ok g

/-- The two-appends-per-iteration loop emits 2n list entries. -/
theorem pairFlat_length {α : Type} (fg : Nat → α × α) (n : Nat) :
    (pairFlat fg n).length = 2 * n := by
  induction n with
  | zero => simp [pairFlat]
  | succ m ih =>
    simp only [pairFlat, List.range_succ, List.flatMap_append] at *
    simp [ih]
    omega

/-- Positions 2i and 2i+1 of the two-appends-per-iteration loop hold the two
entries appended at iteration i. -/
theorem pairFlat_getElem {α : Type} (fg : Nat → α × α) (n : Nat) (i : Nat) (hi : i < n) :
    (pairFlat fg n)[2 * i]? = some (fg i).1 ∧ (pairFlat fg n)[2 * i + 1]? = some (fg i).2 := by
  induction n with
  | zero => omega
  | succ m ih =>
    simp only [pairFlat, List.range_succ, List.flatMap_append] at *
    rcases Nat.lt_or_ge i m with h | h
    · have hlen : (2 * i) < ((List.range m).flatMap (fun j => [(fg j).1, (fg j).2])).length := by
        have := pairFlat_length fg m
        simp only [pairFlat] at this
        omega
      have hlen1 : (2 * i + 1) < ((List.range m).flatMap (fun j => [(fg j).1, (fg j).2])).length := by
        have := pairFlat_length fg m
        simp only [pairFlat] at this
        omega
      rw [List.getElem?_append, List.getElem?_append, if_pos hlen, if_pos hlen1]
      exact ih h
    · have hi' : i = m := by omega
      subst hi'
      have hL : ((List.range i).flatMap (fun j => [(fg j).1, (fg j).2])).length = 2 * i := by
        have := pairFlat_length fg i
        simp only [pairFlat] at this
        exact this
      constructor
      · rw [List.getElem?_append, if_neg (by omega)]
        simp [hL]
      · rw [List.getElem?_append, if_neg (by omega)]
        simp [hL]

/-- Every member of the two-appends-per-iteration loop output comes from some
iteration i < n. -/
theorem pairFlat_mem {α : Type} (fg : Nat → α × α) (n : Nat) (v : α)
    (hv : v ∈ pairFlat fg n) : ∃ i, i < n ∧ (v = (fg i).1 ∨ v = (fg i).2) := by
  simp only [pairFlat, List.mem_flatMap, List.mem_range, List.mem_cons] at hv
  obtain ⟨i, hi, hcase⟩ := hv
  exact ⟨i, hi, by simpa using hcase⟩

/-- Two loops of the same length whose bodies agree on every iteration below n
emit the same list. -/
theorem pairFlat_congr {α : Type} (fg fh : Nat → α × α) (n : Nat)
    (h : ∀ i, i < n → fg i = fh i) : pairFlat fg n = pairFlat fh n := by
  unfold pairFlat
  refine List.flatMap_congr ?_
  intro i hi
  rw [h i (List.mem_range.mp hi)]

/-- Length of the arange embedding. -/
theorem arange_length (N step : Nat) : (arange N step).length = (N + step - 1) / step := by
  simp [arange]

/-- Normalization preserves the sequence length. -/
theorem normalize_length (s : List ℝ) : (normalize s).length = s.length := by
  unfold normalize
  split <;> simp

/-- The prepared sample count is the downsampling index count, whether or not
normalization is applied. -/
theorem preparedMono_map_length (s : List ℝ) (r : Nat) (na : Bool) :
    (preparedMono s r na).map (fun p => p.1.length) =
      (sampleIndices s.length r).map (fun p => p.1.length) := by
  unfold preparedMono
  cases sampleIndices s.length r with
  | none => rfl
  | some p =>
    simp only [Option.map_some]
    cases na <;> simp [normalize_length]

/-- Reading a mapped list with default 0 commutes with multiplying each entry
by a constant, because the default 0 is itself fixed by that multiplication. -/
theorem getD_map_mul (c : ℝ) (s : List ℝ) (i : Nat) :
    (s.map (fun x => c * x)).getD i 0 = c * s.getD i 0 := by
  rcases Nat.lt_or_ge i s.length with h | h
  · rw [List.getD_eq_getElem _ _ (by simpa using h), List.getD_eq_getElem _ _ h,
      List.getElem_map]
  · rw [List.getD_eq_default _ _ (by simpa using h), List.getD_eq_default _ _ h, mul_zero]

/-- C4: for every prepared sample count n = s.length, the Linear and Radial
builders emit exactly 2n vertices and the Spiral builder emits exactly n
vertices; Linear emits exactly n-1 quad faces, Radial exactly n quad faces
(its closed ring), Spiral exactly n-1 edges and 0 faces.  Stated for every n
(truncated subtraction makes the n-1 counts hold at n = 0 and n = 1 as well),
which covers the claimed ranges n >= 1 and n >= 2. -/
theorem C4_builder_counts (s : List ℝ) (sx sy sz th : ℝ) :
    (linearVerts s sx sy sz th).length = 2 * s.length ∧
    (radialVerts s sx sy sz th).length = 2 * s.length ∧
    (spiralVerts s sx sy sz).length = s.length ∧
    (linearFaces s.length).length = s.length - 1 ∧
    (radialFaces s.length).length = s.length ∧
    (spiralEdges s.length).length = s.length - 1 ∧
    (buildGeometry .SPIRAL s sx sy sz th).2.2 = [] := by
  refine ⟨?_, ?_, ?_, ?_, ?_, ?_, rfl⟩
  · simp only [linearVerts]
    exact pairFlat_length _ _
  · simp only [radialVerts]
    exact pairFlat_length _ _
  · simp [spiralVerts]
  · simp [linearFaces]
  · simp [radialFaces]
  · simp [spiralEdges]

/-- C3: every vertex index appearing in any emitted edge or face is strictly
below the number of emitted vertices, for every prepared sample list and each
of the three styles. -/
theorem C3_indices_in_range (s : List ℝ) (sx sy sz th : ℝ) :
    (∀ e ∈ linearEdges s.length,
      e.1 < (linearVerts s sx sy sz th).length ∧ e.2 < (linearVerts s sx sy sz th).length) ∧
    (∀ f ∈ linearFaces s.length,
      f.1 < (linearVerts s sx sy sz th).length ∧ f.2.1 < (linearVerts s sx sy sz th).length ∧
      f.2.2.1 < (linearVerts s sx sy sz th).length ∧ f.2.2.2 < (linearVerts s sx sy sz th).length) ∧
    (∀ f ∈ radialFaces s.length,
      f.1 < (radialVerts s sx sy sz th).length ∧ f.2.1 < (radialVerts s sx sy sz th).length ∧
      f.2.2.1 < (radialVerts s sx sy sz th).length ∧ f.2.2.2 < (radialVerts s sx sy sz th).length) ∧
    (∀ e ∈ spiralEdges s.length,
      e.1 < (spiralVerts s sx sy sz).length ∧ e.2 < (spiralVerts s sx sy sz).length) := by
  have hlin : (linearVerts s sx sy sz th).length = 2 * s.length := by
    simp only [linearVerts]
    exact pairFlat_length _ _
  have hrad : (radialVerts s sx sy sz th).length = 2 * s.length := by
    simp only [radialVerts]
    exact pairFlat_length _ _
  have hspi : (spiralVerts s sx sy sz).length = s.length := by simp [spiralVerts]
  refine ⟨?_, ?_, ?_, ?_⟩
  · intro e he
    obtain ⟨i, hi, hcase⟩ := pairFlat_mem _ _ _ he
    rw [hlin]
    rcases hcase with h | h <;> subst h <;> constructor <;> simp <;> omega
  · intro f hf
    simp only [linearFaces, List.mem_map, List.mem_range] at hf
    obtain ⟨i, hi, rfl⟩ := hf
    rw [hlin]
    refine ⟨by simp; omega, by simp; omega, by simp; omega, by simp; omega⟩
  · intro f hf
    simp only [radialFaces, List.mem_map, List.mem_range] at hf
    obtain ⟨i, hi, rfl⟩ := hf
    have hmod : (i + 1) % s.length < s.length := Nat.mod_lt _ (by omega)
    rw [hrad]
    refine ⟨by simp; omega, by simp; omega, by simp; omega, by simp; omega⟩
  · intro e he
    simp only [spiralEdges, List.mem_map, List.mem_range] at he
    obtain ⟨i, hi, rfl⟩ := he
    rw [hspi]
    exact ⟨by simp; omega, by simp; omega⟩

/-- Witness for C3 at the concrete prepared list [0, 1] (n = 2): the top
linear edge (1, 3) is emitted and both of its indices are below the linear
vertex count. -/
theorem C3_indices_in_range_witness :
    ((1, 3) ∈ linearEdges ([(0 : ℝ), 1]).length) ∧
    ((1, 3).1 < (linearVerts [(0 : ℝ), 1] 1 1 1 1).length ∧
     (1, 3).2 < (linearVerts [(0 : ℝ), 1] 1 1 1 1).length) :=
  ⟨by decide, (C3_indices_in_range [0, 1] 1 1 1 1).1 (1, 3) (by decide)⟩

/-- C2 counterexample: at prepared sample count n = 1 the Radial builder does
NOT produce 0 faces — its wrap-around loop runs once and emits the degenerate
quad (0, 0, 1, 1). -/
theorem C2_counterexample : ¬ ((radialFaces ([(0 : ℝ)]).length).length = 0) := by
  decide

/-- C2 amended: at prepared sample count n = 1 the Linear builder produces
exactly 2 vertices and 0 faces, the Radial builder produces exactly 2 vertices
and exactly 1 degenerate quad face (0, 0, 1, 1) from its wrap-around loop
(rather than the claimed 0 faces), and the Spiral builder produces exactly 1
vertex and 0 edges; the single-sample input is accepted by the whole pipeline
rather than treated as an error. -/
theorem C2_amended_single_sample (a sx sy sz th : ℝ) :
    (linearVerts [a] sx sy sz th).length = 2 ∧
    (linearFaces ([a] : List ℝ).length).length = 0 ∧
    (radialVerts [a] sx sy sz th).length = 2 ∧
    radialFaces ([a] : List ℝ).length = [(0, 0, 1, 1)] ∧
    (spiralVerts [a] sx sy sz).length = 1 ∧
    (spiralEdges ([a] : List ℝ).length).length = 0 ∧
    ∀ style : VisStyle, ∃ g, generateMono [a] 10 false style sx sy sz th = .ok g := by
  have hfaces : radialFaces ([a] : List ℝ).length = [(0, 0, 1, 1)] := by
    show radialFaces 1 = [(0, 0, 1, 1)]
    decide
  refine ⟨rfl, rfl, rfl, hfaces, rfl, rfl, ?_⟩
  have hidx : sampleIndices ([a] : List ℝ).length 10 = some ([0], true) := by
    show sampleIndices 1 10 = some ([0], true)
    decide
  have hp : preparedMono [a] 10 false = some ([a], true) := by
    unfold preparedMono
    rw [hidx]
    simp [List.getD]
  intro style
  refine ⟨buildGeometry style [a] sx sy sz th, ?_⟩
  unfold generateMono
  rw [hp]
  have hne : (buildGeometry style [a] sx sy sz th).1.isEmpty = false := by
    cases style <;>
      simp [buildGeometry, linearVerts, radialVerts, spiralVerts, pairFlat, List.range_succ]
  simp [hne]

/-- C1 counterexample: for a 25-sample buffer and requested resolution 10 the
prepared sample count is 13 (stride 2, indices 0, 2, ..., 24), not
min(10, 25) = 10. -/
theorem C1_counterexample :
    ¬ ((preparedMono (List.replicate 25 (0 : ℝ)) 10 false).map (fun p => p.1.length) =
        some (min 10 (List.replicate 25 (0 : ℝ)).length)) := by
  rw [preparedMono_map_length]
  simp only [List.length_replicate]
  decide

/-- C1 amended: for a buffer with N >= 1 samples and requested resolution
r >= 1, signal preparation succeeds and retains exactly
ceil(N / stride) = (N + stride - 1) / stride samples, where stride is the
clamped floor stride of lines 174-181; whenever r >= N the retained count
equals exactly N, and whenever r <= N the retained count is at least r (it can
exceed r, so it need not equal min(r, N)). -/
theorem C1_amended_count (s : List ℝ) (r : Nat) (na : Bool)
    (hN : 1 ≤ s.length) (hr : 1 ≤ r) :
    ∃ p, preparedMono s r na = some p ∧
      p.1.length = (s.length + strideFor s.length r - 1) / strideFor s.length r ∧
      (s.length ≤ r → p.1.length = s.length) ∧
      (r ≤ s.length → r ≤ p.1.length) := by
  have htr : (if r > s.length then s.length else r) ≠ 0 := by split <;> omega
  have hprep : preparedMono s r na =
      some ((if na then
               normalize ((arange s.length (strideFor s.length r)).map (fun i => s.getD i 0))
             else (arange s.length (strideFor s.length r)).map (fun i => s.getD i 0)),
            decide (r > s.length)) := by
    simp only [preparedMono, sampleIndices]
    rw [if_neg htr]
    rfl
  have hlen : ((if na then
               normalize ((arange s.length (strideFor s.length r)).map (fun i => s.getD i 0))
             else (arange s.length (strideFor s.length r)).map (fun i => s.getD i 0))).length =
      (s.length + strideFor s.length r - 1) / strideFor s.length r := by
    cases na <;> simp [normalize_length, arange_length]
  refine ⟨_, hprep, hlen, ?_, ?_⟩
  · intro hNr
    rw [hlen]
    have hsf : strideFor s.length r = 1 := by
      unfold strideFor
      have htrN : (if r > s.length then s.length else r) = s.length := by split <;> omega
      rw [htrN, Nat.div_self (by omega)]
      norm_num
    rw [hsf]
    omega
  · intro hrN
    rw [hlen]
    have h1 : 1 ≤ s.length / r := (Nat.one_le_div_iff (by omega)).mpr hrN
    have hsf : strideFor s.length r = s.length / r := by
      unfold strideFor
      have htrr : (if r > s.length then s.length else r) = r := by split <;> omega
      rw [htrr, if_neg (by omega)]
    rw [hsf, Nat.le_div_iff_mul_le (by omega)]
    have hdm : r * (s.length / r) ≤ s.length := by
      rw [Nat.mul_comm]
      exact Nat.div_mul_le_self s.length r
    revert h1 hdm
    generalize s.length / r = q
    generalize s.length = N
    intro h1 hdm
    revert hdm
    generalize r * q = p
    omega

/-- Witness for C1 amended at the concrete 2-sample buffer [0, 0] with
requested resolution 10 (clamped to 2, stride 1, both samples retained). -/
theorem C1_amended_count_witness :
    1 ≤ ([(0 : ℝ), 0]).length ∧ (1 : Nat) ≤ 10 ∧
    (∃ p, preparedMono [(0 : ℝ), 0] 10 false = some p ∧
      p.1.length = (([(0 : ℝ), 0]).length + strideFor ([(0 : ℝ), 0]).length 10 - 1) /
        strideFor ([(0 : ℝ), 0]).length 10 ∧
      (([(0 : ℝ), 0]).length ≤ 10 → p.1.length = ([(0 : ℝ), 0]).length) ∧
      (10 ≤ ([(0 : ℝ), 0]).length → 10 ≤ p.1.length)) :=
  ⟨by simp, by omega, C1_amended_count [0, 0] 10 false (by simp) (by omega)⟩

/-- C7: for a raw buffer with zero samples, generation fails (the division by
the clamped resolution raises, caught by the handler at lines 319-323) before
any geometry is built, and the pipeline never reaches the mesh-hosting calls:
generateMono returns the emptySignal error for every configuration. -/
theorem C7_empty_buffer (req : Nat) (na : Bool) (style : VisStyle) (sx sy sz th : ℝ) :
    generateMono ([] : List ℝ) req na style sx sy sz th = .error .emptySignal := by
  have h : sampleIndices 0 req = none := by
    unfold sampleIndices
    rcases Nat.eq_zero_or_pos req with h0 | h0
    · subst h0
      rfl
    · simp [h0]
  simp [generateMono, preparedMono, h]

/-- C8: when the requested resolution exceeds the available sample count
N >= 1, preparation succeeds (no error), the clamp warning flag is set, and
the effective retained sample count equals exactly N. -/
theorem C8_clamp (s : List ℝ) (req : Nat) (na : Bool)
    (hN : 1 ≤ s.length) (hr : s.length < req) :
    ∃ d, preparedMono s req na = some (d, true) ∧ d.length = s.length := by
  have htr : (if req > s.length then s.length else req) ≠ 0 := by split <;> omega
  have hsf : strideFor s.length req = 1 := by
    unfold strideFor
    have htrN : (if req > s.length then s.length else req) = s.length := by split <;> omega
    rw [htrN, Nat.div_self (by omega)]
    norm_num
  have hw : decide (req > s.length) = true := decide_eq_true hr
  have hprep : preparedMono s req na =
      some ((if na then normalize ((arange s.length 1).map (fun i => s.getD i 0))
             else (arange s.length 1).map (fun i => s.getD i 0)), true) := by
    simp only [preparedMono, sampleIndices]
    rw [if_neg htr, hsf]
    simp only [hw]
    rfl
  refine ⟨_, hprep, ?_⟩
  cases na <;> simp [normalize_length, arange_length]

/-- Witness for C8 at the concrete 2-sample buffer [0, 0] with requested
resolution 10. -/
theorem C8_clamp_witness :
    1 ≤ ([(0 : ℝ), 0]).length ∧ ([(0 : ℝ), 0]).length < 10 ∧
    ∃ d, preparedMono [(0 : ℝ), 0] 10 false = some (d, true) ∧
      d.length = ([(0 : ℝ), 0]).length :=
  ⟨by simp, by simp, C8_clamp [0, 0] 10 false (by simp) (by simp)⟩

/-- C9: normalization is a no-op on a sequence whose maximum absolute value is
already 1, and leaves a sequence with maximum absolute value 0 (such as the
all-zero sequence) untouched instead of dividing by zero. -/
theorem C9_normalize (s : List ℝ) :
    (maxAbs s = 1 → normalize s = s) ∧ (maxAbs s = 0 → normalize s = s) := by
  constructor
  · intro h1
    unfold normalize
    rw [h1]
    norm_num
  · intro h0
    unfold normalize
    rw [if_pos h0]

/-- Witness for C9: the singleton [1] has maximum absolute value 1 and the
singleton [0] has maximum absolute value 0; both are fixed by normalization. -/
theorem C9_normalize_witness :
    (maxAbs [(1 : ℝ)] = 1 ∧ normalize [(1 : ℝ)] = [(1 : ℝ)]) ∧
    (maxAbs [(0 : ℝ)] = 0 ∧ normalize [(0 : ℝ)] = [(0 : ℝ)]) :=
  ⟨⟨by norm_num [maxAbs], (C9_normalize [1]).1 (by norm_num [maxAbs])⟩,
   ⟨by norm_num [maxAbs], (C9_normalize [0]).2 (by norm_num [maxAbs])⟩⟩

/-- C10: for each builder on a mono prepared sequence, the samples and scaleY
interact only through their product — building from samples c*s with
scaleY = 1 yields exactly the same vertex, edge and face lists as building
from samples s with scaleY = c. -/
theorem C10_scale_homomorphism (c : ℝ) (s : List ℝ) (sx sz th : ℝ) :
    linearVerts (s.map (fun x => c * x)) sx 1 sz th = linearVerts s sx c sz th ∧
    radialVerts (s.map (fun x => c * x)) sx 1 sz th = radialVerts s sx c sz th ∧
    spiralVerts (s.map (fun x => c * x)) sx 1 sz = spiralVerts s sx c sz ∧
    linearEdges (s.map (fun x => c * x)).length = linearEdges s.length ∧
    linearFaces (s.map (fun x => c * x)).length = linearFaces s.length ∧
    radialFaces (s.map (fun x => c * x)).length = radialFaces s.length ∧
    spiralEdges (s.map (fun x => c * x)).length = spiralEdges s.length := by
  refine ⟨?_, ?_, ?_, by rw [List.length_map], by rw [List.length_map],
    by rw [List.length_map], by rw [List.length_map]⟩
  · simp only [linearVerts, List.length_map]
    apply pairFlat_congr
    intro i hi
    simp only [getD_map_mul, Prod.mk.injEq]
    and_intros <;> first | trivial | ring
  · simp only [radialVerts, List.length_map]
    apply pairFlat_congr
    intro i hi
    simp only [getD_map_mul, Prod.mk.injEq]
    and_intros <;> first | trivial | ring
  · simp only [spiralVerts, List.length_map]
    apply List.map_congr_left
    intro i hi
    simp only [getD_map_mul, Prod.mk.injEq]
    and_intros <;> first | trivial | ring

/-- C5: the Radial builder places, for each i below n, a pair of vertices at
angle (i/n)*2*pi with planar position (cos(angle)*radius*sx,
sin(angle)*radius*sx) where radius = 1.0 + sample[i]*sy, and
z = -(th*sz)/2 and +(th*sz)/2; consequently when every amplitude is 0 and
sx >= 0 every emitted vertex lies at planar distance exactly sx from the
origin. -/
theorem C5_radial_placement (s : List ℝ) (sx sy sz th : ℝ) :
    (∀ i, i < s.length →
      (radialVerts s sx sy sz th)[2 * i]? =
        some (Real.cos (((i : ℝ) / (s.length : ℝ)) * 2 * Real.pi) * (1.0 + s.getD i 0 * sy) * sx,
              Real.sin (((i : ℝ) / (s.length : ℝ)) * 2 * Real.pi) * (1.0 + s.getD i 0 * sy) * sx,
              -(th * sz / 2)) ∧
      (radialVerts s sx sy sz th)[2 * i + 1]? =
        some (Real.cos (((i : ℝ) / (s.length : ℝ)) * 2 * Real.pi) * (1.0 + s.getD i 0 * sy) * sx,
              Real.sin (((i : ℝ) / (s.length : ℝ)) * 2 * Real.pi) * (1.0 + s.getD i 0 * sy) * sx,
              th * sz / 2)) ∧
    ((∀ x ∈ s, x = 0) → 0 ≤ sx →
      ∀ v ∈ radialVerts s sx sy sz th, Real.sqrt (v.1 ^ 2 + v.2.1 ^ 2) = sx) := by
  constructor
  · intro i hi
    simp only [radialVerts]
    rw [show -(th * sz / 2) = -(th * 0.5 * sz) by ring,
        show th * sz / 2 = th * 0.5 * sz by ring]
    exact pairFlat_getElem _ _ i hi
  · intro hzero hsx v hv
    simp only [radialVerts] at hv
    obtain ⟨i, hi, hcase⟩ := pairFlat_mem _ _ _ hv
    have hgd : s.getD i 0 = 0 := by
      rw [List.getD_eq_getElem s 0 hi]
      exact hzero _ (List.getElem_mem hi)
    have hpyth := Real.sin_sq_add_cos_sq (((i : ℝ) / (s.length : ℝ)) * 2 * Real.pi)
    have hsq : v.1 ^ 2 + v.2.1 ^ 2 = sx ^ 2 := by
      rcases hcase with h | h <;> subst h <;> simp only [hgd] <;> nlinarith [hpyth]
    rw [hsq, Real.sqrt_sq hsx]

/-- Witness for C5 at the concrete all-zero sample list [0] with every scale
and the thickness equal to 1. -/
theorem C5_radial_placement_witness :
    (0 < ([(0 : ℝ)]).length) ∧ (∀ x ∈ [(0 : ℝ)], x = 0) ∧ ((0 : ℝ) ≤ 1) ∧
    (∀ v ∈ radialVerts [(0 : ℝ)] 1 1 1 1, Real.sqrt (v.1 ^ 2 + v.2.1 ^ 2) = 1) :=
  ⟨by simp, by simp, by norm_num,
   (C5_radial_placement [(0 : ℝ)] 1 1 1 1).2 (by simp) (by norm_num)⟩

/-- C6: in Z_AXIS stereo handling with the LINEAR style, each sample i emits
exactly two vertices whose y coordinate is left[i]*sy and whose z coordinates
are -(right[i]*sz)/2 and +(right[i]*sz)/2: the left channel drives amplitude
and the right channel drives the data-driven half-thickness. -/
theorem C6_stereo_z (l r : List ℝ) (sx sy sz : ℝ) (i : Nat) (hi : i < l.length) :
    (linearVertsStereoZ l r sx sy sz).length = 2 * l.length ∧
    ∃ x : ℝ,
      (linearVertsStereoZ l r sx sy sz)[2 * i]? =
        some (x, l.getD i 0 * sy, -(r.getD i 0 * sz / 2)) ∧
      (linearVertsStereoZ l r sx sy sz)[2 * i + 1]? =
        some (x, l.getD i 0 * sy, r.getD i 0 * sz / 2) := by
  constructor
  · simp only [linearVertsStereoZ]
    exact pairFlat_length _ _
  · refine ⟨(if l.length > 1 then (i : ℝ) / ((l.length : ℝ) - 1) else 0.5) * sx, ?_, ?_⟩
    · simp only [linearVertsStereoZ]
      rw [show -(r.getD i 0 * sz / 2) = -(r.getD i 0 * sz) * 0.5 by ring]
      exact (pairFlat_getElem _ _ i hi).1
    · simp only [linearVertsStereoZ]
      rw [show r.getD i 0 * sz / 2 = r.getD i 0 * sz * 0.5 by ring]
      exact (pairFlat_getElem _ _ i hi).2

/-- Witness for C6 at the concrete one-sample stereo pair left = [1],
right = [2] with all scales 1, at sample index 0. -/
theorem C6_stereo_z_witness :
    (0 < ([(1 : ℝ)]).length) ∧
    ((linearVertsStereoZ [(1 : ℝ)] [(2 : ℝ)] 1 1 1).length = 2 * ([(1 : ℝ)]).length ∧
     ∃ x : ℝ,
       (linearVertsStereoZ [(1 : ℝ)] [(2 : ℝ)] 1 1 1)[2 * 0]? =
         some (x, ([(1 : ℝ)]).getD 0 0 * 1, -(([(2 : ℝ)]).getD 0 0 * 1 / 2)) ∧
       (linearVertsStereoZ [(1 : ℝ)] [(2 : ℝ)] 1 1 1)[2 * 0 + 1]? =
         some (x, ([(1 : ℝ)]).getD 0 0 * 1, ([(2 : ℝ)]).getD 0 0 * 1 / 2)) :=
  ⟨by simp, C6_stereo_z [(1 : ℝ)] [(2 : ℝ)] 1 1 1 0 (by simp)⟩

end Soundwave
